import Mathlib

/-!
# Verification of the tankwar network relay and replication core

Shallow embedding of the peer-to-peer relay (`src/game/network/ServerNetwork.ts`),
the replication/eviction logic of the game scene, the tank model
(`src/game/models/Tank.ts`, `TankPlayer`), and the chat UI rate limiter.

Conventions of the embedding:
* JavaScript `Set`/`Map` collections are modelled as insertion-ordered lists;
  `Set.add` appends when absent, `Map.set` overwrites in place.
* Timestamps (`Date.now()`), durations and health values are integers.
* Asynchronous callback sequences are modelled as the list of events they emit,
  in the order the single-threaded runtime fires them.
* Opaque payloads (`data: any`) are an inductive `Payload` that separates the
  network layer's own roster payloads from raw application payloads.
* Classes whose behaviour the repository only declares elsewhere
  (the abstract `Network` base class's channel handles, `Properties`,
  `TankNetwork.networkUpdate`) are modelled from the spec and marked as such.
-/

namespace Tankwar

/-- Application metadata attached to a peer: display name and chosen tank
variant (`Metadata` of `NetworkEvents`, as used by `Root`/`Game`). -/
structure Metadata where
  name : String
  tank : String
deriving DecidableEq, Repr

/-- `PeerData`: a participant identity `{uuid, metadata}`. -/
structure PeerData where
  uuid : String
  metadata : Metadata
deriving DecidableEq, Repr

/-- A transport connection as seen by the host: the remote peer id
(`connection.peer`) plus the metadata it supplied at connection time. -/
structure DataConnection where
  peer : String
  metadata : Metadata
deriving DecidableEq, Repr

/-- The opaque `data` field of a wire envelope. `raw` stands for any
application payload; `roster` is the `{peer, peers}` payload of the network
layer's own `join`/`leave` envelopes. -/
inductive Payload where
  | raw (s : String)
  | roster (peer : PeerData) (peers : List PeerData)
deriving DecidableEq, Repr

/-- Wire envelope `{channel, data, peer}` (type `Message` in `Network.ts`). -/
structure Message where
  channel : String
  data : Payload
  peer : String
deriving DecidableEq, Repr

/-- `NetworkStatus` enum. -/
inductive NetworkStatus where
  | Disconnected
  | Connecting
  | Connected
deriving DecidableEq, Repr

/-- Local (never serialized) notifications emitted through the emitter:
`status`, `peers`, `join`, `leave`. -/
inductive LocalEvent where
  | statusEv (s : NetworkStatus)
  | peersEv (peers : List PeerData)
  | joinEv (name : String)
  | leaveEv (name : String)
deriving DecidableEq, Repr

/-! ## ServerNetwork (the Host role), from `src/game/network/ServerNetwork.ts` -/

/-- The host's mutable state: `this.peer` (present once the peer has opened,
its id), `this.metadata`, and `this.connections` (a JS `Set`, modelled as an
insertion-ordered duplicate-free list). -/
structure ServerNetwork where
  peerId : Option String
  metadata : Option Metadata
  connections : List DataConnection
deriving DecidableEq, Repr

namespace ServerNetwork

/-- `getPeerData()`: `{uuid: this.peer.id, metadata: this.metadata}` when both
`this.metadata` and `this.peer` are set, else `undefined`. -/
def getPeerData (st : ServerNetwork) : Option PeerData :=
  match st.metadata, st.peerId with
  | some md, some pid => some ⟨pid, md⟩
  | _, _ => none

/-- The at-most-one-element list that `connectedPeers()` pushes for the host
itself: `[getPeerData()]` when present, else nothing. -/
def selfPeerList (st : ServerNetwork) : List PeerData :=
  match st.getPeerData with
  | some pd => [pd]
  | none => []

/-- `connectedPeers()`: maps each connection to `{uuid: connection.peer,
metadata: connection.metadata}`, then pushes the host's own `getPeerData()`
if present. -/
def connectedPeers (st : ServerNetwork) : List PeerData :=
  st.connections.map (fun c => ⟨c.peer, c.metadata⟩) ++ st.selfPeerList

/-- `broadcast(data, exclude?)`: sends `data` to every connection in the set
except `exclude`. The result is the list of `(target, message)` transmissions,
in set iteration (insertion) order. -/
def broadcast (st : ServerNetwork) (m : Message) (exclude : Option DataConnection) :
    List (DataConnection × Message) :=
  (st.connections.filter (fun c => exclude ≠ some c)).map (fun c => (c, m))

/-- `send(channel, data)`: if `this.peer` is set, broadcast
`{channel, data, peer: this.peer.id}` to all connections (no exclusion). -/
def send (st : ServerNetwork) (channel : String) (data : Payload) :
    List (DataConnection × Message) :=
  match st.peerId with
  | some pid => st.broadcast ⟨channel, data, pid⟩ none
  | none => []

/-- Modelled from the spec: the abstract `Network` base class (not in the
repository snapshot) provides `channel(name)` handles whose `send(data)`
"wraps payload as an Envelope tagged with the channel name and transmits via
the Role's `send`" (§4.2). For the Host role that `send` is
`ServerNetwork.send` above. -/
def channelSend (st : ServerNetwork) (channel : String) (data : Payload) :
    List (DataConnection × Message) :=
  st.send channel data

/-- `handleMessage(connection, data)`: after the base class dispatches the
envelope locally, the host broadcasts `{...data, peer: connection.peer}`
(origin re-stamped, channel and payload kept by the spread) to every
connection except the sender. Only the wire transmissions are returned. -/
def handleMessage (st : ServerNetwork) (conn : DataConnection) (m : Message) :
    List (DataConnection × Message) :=
  st.broadcast { m with peer := conn.peer } (some conn)

/-- Result of a connection-lifecycle step: new state, wire transmissions, and
locally emitted events. -/
structure StepResult where
  state : ServerNetwork
  wire : List (DataConnection × Message)
  localEvents : List LocalEvent
deriving DecidableEq, Repr

/-- Body of `addConnection`'s `open` handler: adds the connection to the set,
recomputes the peer list, emits `peers` and `join` locally, and sends a `join`
envelope `{peer, peers}` through the `join` channel handle. -/
def addConnection (st : ServerNetwork) (conn : DataConnection) : StepResult :=
  let conns := if conn ∈ st.connections then st.connections else st.connections ++ [conn]
  let st' : ServerNetwork := { st with connections := conns }
  let peers := st'.connectedPeers
  { state := st'
    wire := st'.channelSend "join" (.roster ⟨conn.peer, conn.metadata⟩ peers)
    localEvents := [.peersEv peers, .joinEv conn.metadata.name] }

/-- `removeConnection`: closes the connection, deletes it from the set,
recomputes the peer list, emits `peers` and `leave` locally, and sends a
`leave` envelope `{peer, peers}` through the `leave` channel handle. -/
def removeConnection (st : ServerNetwork) (conn : DataConnection) : StepResult :=
  let st' : ServerNetwork := { st with connections := st.connections.filter (· ≠ conn) }
  let peers := st'.connectedPeers
  { state := st'
    wire := st'.channelSend "leave" (.roster ⟨conn.peer, conn.metadata⟩ peers)
    localEvents := [.peersEv peers, .leaveEv conn.metadata.name] }

/-- Outcome of one connection attempt: the wrapped peer either fires `open`
or fires `error` before opening. -/
inductive ConnectOutcome where
  | opened
  | errored (e : String)
deriving DecidableEq, Repr

/-- `connect({metadata})`: stores the metadata, calls `disconnect()` (which
clears the peer and connection set and emits `Disconnected`), emits
`Connecting`, and creates a peer with this host's id. On `open` it emits
`Connected`, stores the peer, emits `peers` and resolves; on `error` it calls
`disconnect()` (emitting `Disconnected` again) and rejects with the error.
The single `.once` registration surfaces the error to the caller once.
Returns the final state, the emitted local events in order, and the
promise outcome. -/
def connect (_st : ServerNetwork) (md : Metadata) (id : String)
    (outcome : ConnectOutcome) :
    ServerNetwork × List LocalEvent × Except String Unit :=
  let st0 : ServerNetwork := { peerId := none, metadata := some md, connections := [] }
  match outcome with
  | .opened =>
    let st1 : ServerNetwork := { st0 with peerId := some id }
    (st1,
     [.statusEv .Disconnected, .statusEv .Connecting, .statusEv .Connected,
      .peersEv st1.connectedPeers],
     .ok ())
  | .errored e =>
    (st0,
     [.statusEv .Disconnected, .statusEv .Connecting, .statusEv .Disconnected],
     .error e)

/-- The network statuses emitted within a list of local events, in order. -/
def statusesOf (evs : List LocalEvent) : List NetworkStatus :=
  evs.filterMap (fun ev =>
    match ev with
    | .statusEv s => some s
    | _ => none)

end ServerNetwork

/-! ## Game scene: staleness eviction and snapshot ingestion (`Game.ts`) -/

namespace Game

/-- The staleness test inside `Game.update`:
`entity.getLastUpdate() + (5000 + delta) < Date.now()`. -/
def staleCheck (lastUpdate delta now : Int) : Bool :=
  lastUpdate + (5000 + delta) < now

/-- An entry of the `tanks` collection as seen by `Game.update`: its uuid,
whether it is a remote proxy (`instanceof TankNetwork`), and its last
snapshot timestamp. -/
structure EntityRec where
  uuid : String
  isNetwork : Bool
  lastUpdate : Int
deriving DecidableEq, Repr

/-- The eviction pass of `Game.update`: every entity that is a `TankNetwork`
and fails the staleness test is removed from the collection; all other
entities are kept. -/
def updateStep (tanks : List EntityRec) (now delta : Int) : List EntityRec :=
  tanks.filter (fun e => !(e.isNetwork && staleCheck e.lastUpdate delta now))

/-- An incoming `update` snapshot: the uuid it carries plus its (opaque)
replicated state. -/
structure Snapshot where
  uuid : String
  payload : String
deriving DecidableEq, Repr

/-- JS `Map.set` on an insertion-ordered association list: overwrite in place
when the key exists, else append. -/
def mapSet (l : List (String × Snapshot)) (k : String) (v : Snapshot) :
    List (String × Snapshot) :=
  if l.any (fun p => p.1 = k) then
    l.map (fun p => if p.1 = k then (k, v) else p)
  else l ++ [(k, v)]

/-- JS `Map.get` on the association list. -/
def mapGet (l : List (String × Snapshot)) (k : String) : Option Snapshot :=
  match l with
  | [] => none
  | p :: ps => if p.1 = k then some p.2 else mapGet ps k

/-- The `update` channel handler in `Game.create`: snapshots with no local
player or with the local player's uuid are discarded; all others are stored
in the pending `tanks` buffer keyed by uuid (`Map.set`, last-write-wins). -/
def bufferUpdate (playerUuid : Option String) (buffer : List (String × Snapshot))
    (snap : Snapshot) : List (String × Snapshot) :=
  match playerUuid with
  | none => buffer
  | some pu => if snap.uuid = pu then buffer else mapSet buffer snap.uuid snap

/-- A remote proxy (`TankNetwork`) as far as snapshot ingestion is concerned:
its uuid and the last snapshot applied to it. -/
structure Proxy where
  uuid : String
  lastSnapshot : Snapshot
deriving DecidableEq, Repr

/-- Modelled from the spec: `TankNetwork.networkUpdate` (class not in the
repository snapshot) "applies the snapshot (§4.3 import) and refreshes its
last-update timestamp"; here it records the snapshot as the proxy's state. -/
def networkUpdate (p : Proxy) (s : Snapshot) : Proxy :=
  { p with lastSnapshot := s }

/-- One buffered entry processed by the 100 ms loop: if a proxy with that
uuid exists, apply the snapshot to it; else construct a new proxy from the
snapshot, add it to the collection and apply the snapshot. -/
def applyBuffered (entities : List Proxy) (entry : String × Snapshot) : List Proxy :=
  if entities.any (fun p => p.uuid = entry.1) then
    entities.map (fun p => if p.uuid = entry.1 then networkUpdate p entry.2 else p)
  else entities ++ [⟨entry.1, entry.2⟩]

/-- The body of the 100 ms `asyncLoop`: fold the pending buffer over the
proxy collection, then clear the buffer (`tanks.clear()`). -/
def processTick (entities : List Proxy) (buffer : List (String × Snapshot)) :
    List Proxy × List (String × Snapshot) :=
  (buffer.foldl applyBuffered entities, [])

/-- Look up the proxy with the given uuid (first match, as in `Map.get`). -/
def findProxy (u : String) : List Proxy → Option Snapshot
  | [] => none
  | p :: ps => if p.uuid = u then some p.lastSnapshot else findProxy u ps

end Game

/-! ## Tank model (`src/game/models/Tank.ts`, `TankPlayer`) -/

namespace Tank

/-- The `set` transform of the `health` property:
`value => Math.min(Math.max(value, 0), 100)`. -/
def healthSet (value : Int) : Int :=
  min (max value 0) 100

/-- The observable state of the `health` property: its stored value and how
many times its reached-zero transition has run `die()`. -/
structure HealthProp where
  value : Int
  dieCount : Nat
deriving DecidableEq, Repr

/-- Modelled from the spec: the `Properties` bag write path (class not in the
repository snapshot) - "a write first applies the definition's `set`
transform if present, compares to the previous value, and - only if
changed - commits the new value, then invokes the property's
`onChange(new, old)`" (§4.3). The `onChange` of `health` (from the `Tank`
constructor) calls `die()` when `health <= 0 && oldHealth > 0`. -/
def writeHealth (st : HealthProp) (v : Int) : HealthProp :=
  let newValue := healthSet v
  if newValue = st.value then st
  else
    { value := newValue
      dieCount := st.dieCount + (if newValue ≤ 0 ∧ st.value > 0 then 1 else 0) }

/-- `hit(damage)`: `this.properties.getProperty('health').value -= damage`. -/
def hit (st : HealthProp) (damage : Int) : HealthProp :=
  writeHealth st (st.value - damage)

/-- State relevant to `Tank.shoot`: the `lastShot` timestamp and health. -/
structure ShootState where
  lastShot : Int
  health : Int
deriving DecidableEq, Repr

/-- `isDead()`: `this.health <= 0`. -/
def isDead (st : ShootState) : Bool :=
  st.health ≤ 0

/-- Result of `Tank.shoot`: the returned boolean, how many bullets
`createBullet` made, and the new `lastShot`. -/
structure ShootResult where
  returned : Bool
  bulletsCreated : Nat
  lastShot : Int
deriving DecidableEq, Repr

/-- `Tank.shoot`: `if (this.lastShot + 750 > Date.now() || this.isDead())
return false;` else it plays the sound, sets `lastShot = Date.now()`, creates
exactly one bullet and returns true. -/
def shoot (st : ShootState) (now : Int) : ShootResult :=
  if st.lastShot + 750 > now ∨ isDead st = true then
    ⟨false, 0, st.lastShot⟩
  else
    ⟨true, 1, now⟩

/-- `TankPlayer.shoot`: calls `super.shoot()`; if and only if it returned
true, sends the `tank:shoot` event with the player's uuid. Returns the base
result and the discrete events sent. -/
def playerShoot (st : ShootState) (now : Int) (uuid : String) :
    ShootResult × List (String × String) :=
  let r := shoot st now
  (r, if r.returned then [("tank:shoot", uuid)] else [])

end Tank

/-! ## Chat UI (`ChatUi`) -/

namespace ChatUi

/-- A chat message as stored locally: sending peer's uuid, text, date. -/
structure ChatMessage where
  fromUuid : String
  message : String
  date : Int
deriving DecidableEq, Repr

/-- `ChatUi` state: the `lastMessageTime` ref, the local `messages` list, and
the payloads transmitted on the `chat` channel. -/
structure ChatState where
  lastMessageTime : Int
  messages : List ChatMessage
  transmitted : List (String × Int)
deriving DecidableEq, Repr

/-- `addMessage`: append, sort by date descending (`b.date - a.date`; JS sort
is stable), and keep `slice(-50)`, the last 50 entries. -/
def addMessage (messages : List ChatMessage) (m : ChatMessage) : List ChatMessage :=
  let l := (messages ++ [m]).mergeSort (fun a b => b.date ≤ a.date)
  l.drop (l.length - 50)

/-- `ChatUi.send(message)`: if `getPeerData()` is present, trims the text,
truncates it to 100 characters, transmits `{message, date}` on the `chat`
channel, appends it locally and sets `lastMessageTime = Date.now()`. -/
def sendChat (hasPeer : Bool) (now : Int) (st : ChatState) (uuid : String)
    (message : String) : ChatState :=
  if hasPeer then
    let m := (message.trim).take 100
    { lastMessageTime := now
      messages := addMessage st.messages ⟨uuid, m, now⟩
      transmitted := st.transmitted ++ [(m, now)] }
  else st

/-- `ChatUi.handleSubmit`: drops the submission when
`Date.now() - lastMessageTime.current < 600` or the input is empty;
otherwise calls `send`. -/
def handleSubmit (hasPeer : Bool) (now : Int) (st : ChatState) (uuid : String)
    (input : String) : ChatState :=
  if now - st.lastMessageTime < 600 then st
  else if input = "" then st
  else sendChat hasPeer now st uuid input

end ChatUi

/-! ## Sample data for concrete instantiations -/

/-- Sample metadata for a host. -/
def mdH : Metadata := ⟨"hosty", "heig"⟩

/-- Sample metadata for a first client. -/
def mdA : Metadata := ⟨"alice", "heig"⟩

/-- Sample metadata for a second client. -/
def mdB : Metadata := ⟨"bob", "amboise"⟩

/-- Sample connection from client A. -/
def cA : DataConnection := ⟨"uuid-a", mdA⟩

/-- Sample connection from client B. -/
def cB : DataConnection := ⟨"uuid-b", mdB⟩

/-- A host with one existing connection (cA). -/
def host1 : ServerNetwork := ⟨some "uuid-h", some mdH, [cA]⟩

/-- A host with two connections (cA and cB). -/
def host2 : ServerNetwork := ⟨some "uuid-h", some mdH, [cA, cB]⟩

/-- A sample application envelope arriving from a client, with a
sender-supplied (spoofed) origin field. -/
def chatMsg : Message := ⟨"chat", .raw "hello", "spoofed-origin"⟩

/-- An envelope a client forged on the reserved channel `peers`. -/
def forgedPeers : Message := ⟨"peers", .raw "forged-roster", "uuid-x"⟩

/-! ## Helper lemmas -/

/-- Updating the connection set does not change the host's own peer entry. -/
theorem selfPeerList_set_connections (st : ServerNetwork) (l : List DataConnection) :
    ServerNetwork.selfPeerList { st with connections := l } = st.selfPeerList := rfl

/-- Every transmission produced by `broadcast` carries exactly the broadcast
message. -/
theorem broadcast_snd (st : ServerNetwork) (m : Message) (ex : Option DataConnection) :
    ∀ p ∈ st.broadcast m ex, p.2 = m := by
  intro p hp
  simp only [ServerNetwork.broadcast, List.mem_map] at hp
  obtain ⟨c, _, rfl⟩ := hp
  rfl

/-- `broadcast` without exclusion targets every connection in order. -/
theorem broadcast_none (st : ServerNetwork) (m : Message) :
    st.broadcast m none = st.connections.map (fun c => (c, m)) := by
  rw [ServerNetwork.broadcast]
  congr 1
  refine List.filter_eq_self.mpr ?_
  intro c _
  simp

/-- When the host peer is open, `send` stamps the host id and broadcasts to
every connection. -/
theorem send_some (st : ServerNetwork) (pid : String) (h : st.peerId = some pid)
    (ch : String) (d : Payload) :
    st.send ch d = st.connections.map (fun c => (c, ⟨ch, d, pid⟩)) := by
  simp only [ServerNetwork.send, h]
  exact broadcast_none st _

/-- Every message transmitted by `send` is tagged with the requested
channel. -/
theorem send_channel (st : ServerNetwork) (ch : String) (d : Payload) :
    ∀ p ∈ st.send ch d, p.2.channel = ch := by
  intro p hp
  cases h : st.peerId with
  | none => simp [ServerNetwork.send, h] at hp
  | some pid =>
    simp only [ServerNetwork.send, h] at hp
    rw [broadcast_snd st _ none p hp]

/-- `Map.set` on a list whose keys include `k` updates in place; `Map.get`
then yields the new value. -/
theorem mapGet_map_set (k : String) (v : Game.Snapshot)
    (l : List (String × Game.Snapshot)) (h : (l.any fun p => p.1 = k) = true) :
    Game.mapGet (l.map fun p => if p.1 = k then (k, v) else p) k = some v := by
  induction l with
  | nil => simp at h
  | cons p ps ih =>
    by_cases hp : p.1 = k
    · simp [Game.mapGet, hp]
    · simp only [List.map_cons, if_neg hp]
      simp only [Game.mapGet, hp, if_false]
      exact ih (by simpa [hp] using h)

/-- Appending a fresh key at the end makes `Map.get` of that key yield the
appended value. -/
theorem mapGet_append_new (k : String) (v : Game.Snapshot)
    (l : List (String × Game.Snapshot)) (h : ∀ p ∈ l, p.1 ≠ k) :
    Game.mapGet (l ++ [(k, v)]) k = some v := by
  induction l with
  | nil => simp [Game.mapGet]
  | cons p ps ih =>
    have hp : p.1 ≠ k := h p (List.mem_cons_self p ps)
    simp only [List.cons_append]
    simp only [Game.mapGet, hp, if_false]
    exact ih (fun q hq => h q (List.mem_cons_of_mem p hq))

/-- `Map.get` after `Map.set` of the same key returns the newly set value
(last-write-wins). -/
theorem mapGet_mapSet_self (l : List (String × Game.Snapshot)) (k : String)
    (v : Game.Snapshot) :
    Game.mapGet (Game.mapSet l k v) k = some v := by
  rw [Game.mapSet]
  by_cases h : (l.any fun p => p.1 = k) = true
  · rw [if_pos h]
    exact mapGet_map_set k v l h
  · rw [if_neg h]
    refine mapGet_append_new k v l ?_
    intro p hp hpk
    exact h (List.any_eq_true.mpr ⟨p, hp, by simp [hpk]⟩)

/-- Applying a buffered snapshot to a collection that has a proxy for its
uuid leaves that proxy holding the snapshot. -/
theorem findProxy_map_update (u : String) (s : Game.Snapshot) (es : List Game.Proxy)
    (h : (es.any fun p => p.uuid = u) = true) :
    Game.findProxy u (es.map fun p =>
      if p.uuid = u then Game.networkUpdate p s else p) = some s := by
  induction es with
  | nil => simp at h
  | cons p ps ih =>
    by_cases hp : p.uuid = u
    · simp [Game.findProxy, Game.networkUpdate, hp]
    · simp only [List.map_cons, if_neg hp]
      simp only [Game.findProxy, hp, if_false]
      exact ih (by simpa [hp] using h)

/-- A proxy freshly created from a snapshot and appended to the collection is
found holding that snapshot. -/
theorem findProxy_append_new (u : String) (s : Game.Snapshot) (es : List Game.Proxy)
    (h : ∀ p ∈ es, p.uuid ≠ u) :
    Game.findProxy u (es ++ [⟨u, s⟩]) = some s := by
  induction es with
  | nil => simp [Game.findProxy]
  | cons p ps ih =>
    have hp : p.uuid ≠ u := h p (List.mem_cons_self p ps)
    simp only [List.cons_append]
    simp only [Game.findProxy, hp, if_false]
    exact ih (fun q hq => h q (List.mem_cons_of_mem p hq))

/-- After processing one buffered entry, the proxy under its uuid holds the
buffered snapshot (whether it was created or updated in place). -/
theorem findProxy_applyBuffered_self (es : List Game.Proxy)
    (e : String × Game.Snapshot) :
    Game.findProxy e.1 (Game.applyBuffered es e) = some e.2 := by
  rw [Game.applyBuffered]
  by_cases h : (es.any fun p => p.uuid = e.1) = true
  · rw [if_pos h]
    exact findProxy_map_update e.1 e.2 es h
  · rw [if_neg h]
    refine findProxy_append_new e.1 e.2 es ?_
    intro p hp hpu
    exact h (List.any_eq_true.mpr ⟨p, hp, by simp [hpu]⟩)

/-- Updating the proxies matching one uuid does not disturb lookups of a
different uuid. -/
theorem findProxy_map_update_other (u v : String) (s : Game.Snapshot)
    (es : List Game.Proxy) (hne : u ≠ v) :
    Game.findProxy u (es.map fun p =>
      if p.uuid = v then Game.networkUpdate p s else p) = Game.findProxy u es := by
  induction es with
  | nil => rfl
  | cons p ps ih =>
    simp only [List.map_cons]
    by_cases hp : p.uuid = v
    · have hpu : ¬(p.uuid = u) := fun hh => hne (hh.symm.trans hp)
      rw [if_pos hp]
      simp only [Game.findProxy]
      rw [show (Game.networkUpdate p s).uuid = p.uuid from rfl, if_neg hpu, if_neg hpu]
      exact ih
    · rw [if_neg hp]
      simp only [Game.findProxy]
      by_cases hpu : p.uuid = u
      · rw [if_pos hpu, if_pos hpu]
      · rw [if_neg hpu, if_neg hpu]
        exact ih

/-- Appending a proxy with a different uuid does not disturb lookups. -/
theorem findProxy_append_one (u : String) (q : Game.Proxy) (es : List Game.Proxy)
    (hq : q.uuid ≠ u) :
    Game.findProxy u (es ++ [q]) = Game.findProxy u es := by
  induction es with
  | nil => simp [Game.findProxy, hq]
  | cons p ps ih =>
    by_cases hp : p.uuid = u
    · simp [Game.findProxy, hp]
    · simp [Game.findProxy, hp, ih]

/-- Processing a buffered entry for a different uuid does not disturb
lookups of this uuid. -/
theorem findProxy_applyBuffered_other (u : String) (es : List Game.Proxy)
    (e : String × Game.Snapshot) (hne : u ≠ e.1) :
    Game.findProxy u (Game.applyBuffered es e) = Game.findProxy u es := by
  rw [Game.applyBuffered]
  by_cases h : (es.any fun p => p.uuid = e.1) = true
  · rw [if_pos h]
    exact findProxy_map_update_other u e.1 e.2 es hne
  · rw [if_neg h]
    exact findProxy_append_one u ⟨e.1, e.2⟩ es (fun hh => hne hh.symm)

/-- Folding buffered entries none of which concerns this uuid does not
disturb lookups of it. -/
theorem findProxy_foldl_not_mem (u : String) (buf : List (String × Game.Snapshot))
    (es : List Game.Proxy) (h : u ∉ buf.map Prod.fst) :
    Game.findProxy u (buf.foldl Game.applyBuffered es) = Game.findProxy u es := by
  induction buf generalizing es with
  | nil => rfl
  | cons e rest ih =>
    simp only [List.map_cons, List.mem_cons] at h
    push_neg at h
    rw [List.foldl_cons, ih _ h.2]
    exact findProxy_applyBuffered_other u es e h.1

/-- After folding a buffer with duplicate-free keys into the proxy
collection, each buffered uuid's proxy holds the buffered snapshot. -/
theorem findProxy_foldl_mem (buf : List (String × Game.Snapshot)) (es : List Game.Proxy)
    (hk : (buf.map Prod.fst).Nodup) :
    ∀ e ∈ buf, Game.findProxy e.1 (buf.foldl Game.applyBuffered es) = some e.2 := by
  induction buf generalizing es with
  | nil => intro e he; cases he
  | cons e0 rest ih =>
    simp only [List.map_cons, List.nodup_cons] at hk
    intro e he
    rw [List.foldl_cons]
    rcases List.mem_cons.mp he with rfl | hmem
    · rw [findProxy_foldl_not_mem e.1 rest _ hk.1]
      exact findProxy_applyBuffered_self es e
    · exact ih _ hk.2 e hmem

/-! ## Theorems -/

/-- C1: every envelope the Host receives from a connected client A is
forwarded to every other connection exactly once (the recipient list is
duplicate-free and consists exactly of the connections other than A), never
back to A, with the origin field re-stamped to A's connection identity
(whatever origin the sender supplied) and the channel and payload forwarded
verbatim. -/
theorem relay_fanout (st : ServerNetwork) (conn : DataConnection) (m : Message)
    (hnd : st.connections.Nodup) :
    ((st.handleMessage conn m).map Prod.fst).Nodup ∧
    (∀ c : DataConnection,
      c ∈ (st.handleMessage conn m).map Prod.fst ↔ (c ∈ st.connections ∧ c ≠ conn)) ∧
    (∀ p ∈ st.handleMessage conn m,
      p.1 ≠ conn ∧ p.2.channel = m.channel ∧ p.2.data = m.data ∧ p.2.peer = conn.peer) := by
  have hmap : (st.handleMessage conn m).map Prod.fst
      = st.connections.filter (fun c => some conn ≠ some c) := by
    rw [ServerNetwork.handleMessage, ServerNetwork.broadcast, List.map_map]
    have h : (Prod.fst ∘ fun c : DataConnection =>
        (c, { m with peer := conn.peer })) = fun c => c := rfl
    rw [h, List.map_id']
  refine ⟨?_, ?_, ?_⟩
  · rw [hmap]
    exact hnd.filter _
  · intro c
    rw [hmap]
    simp only [List.mem_filter, decide_eq_true_eq, ne_eq, Option.some.injEq]
    exact ⟨fun ⟨hm, hne⟩ => ⟨hm, fun h => hne h.symm⟩,
           fun ⟨hm, hne⟩ => ⟨hm, fun h => hne h.symm⟩⟩
  · intro p hp
    simp only [ServerNetwork.handleMessage, ServerNetwork.broadcast, List.mem_map,
      List.mem_filter] at hp
    obtain ⟨c, ⟨_, hne⟩, rfl⟩ := hp
    refine ⟨?_, rfl, rfl, rfl⟩
    simp only [decide_eq_true_eq, ne_eq, Option.some.injEq] at hne
    exact fun h => hne h.symm

/-- Witness for C1: the relay property at a concrete host with connections
cA and cB, for an envelope arriving from cA with a spoofed origin: cB is a
recipient exactly because it is a connection other than the sender. -/
theorem relay_fanout_witness :
    ((host2.handleMessage cA chatMsg).map Prod.fst).Nodup ∧
    (cB ∈ (host2.handleMessage cA chatMsg).map Prod.fst ↔
      (cB ∈ host2.connections ∧ cB ≠ cA)) := by
  obtain ⟨h1, h2, _⟩ := relay_fanout host2 cA chatMsg (by decide)
  exact ⟨h1, h2 cB⟩

/-- C6: a connection attempt that errors before reaching `opened` resolves
`connect()` with the error (surfaced once through the single promise
rejection), emits `Disconnected` last and clears the peer; a successful
attempt passes through `Connecting` and resolves after `Connected`. -/
theorem connect_error_disconnected (st : ServerNetwork) (md : Metadata) (id e : String) :
    (ServerNetwork.connect st md id (.errored e)).2.2 = .error e ∧
    ServerNetwork.statusesOf (ServerNetwork.connect st md id (.errored e)).2.1
      = [.Disconnected, .Connecting, .Disconnected] ∧
    (ServerNetwork.connect st md id (.errored e)).1.peerId = none ∧
    (ServerNetwork.connect st md id .opened).2.2 = .ok () ∧
    ServerNetwork.statusesOf (ServerNetwork.connect st md id .opened).2.1
      = [.Disconnected, .Connecting, .Connected] :=
  ⟨rfl, rfl, rfl, rfl, rfl⟩

/-- C9 (amended): the Host itself never originates an envelope on channel
`peers`: its own lifecycle envelopes use channels `join` and `leave`, `send`
tags exactly the requested channel, the relay preserves the incoming
envelope's channel (so `peers` can appear on the wire only if a client itself
sent it), and the peer-list notification is emitted as a local event on every
join and leave. -/
theorem peers_never_originated (st : ServerNetwork) (conn : DataConnection)
    (m : Message) (ch : String) (d : Payload) :
    ((st.addConnection conn).wire.all (fun p => p.2.channel == "join")) = true ∧
    ((st.removeConnection conn).wire.all (fun p => p.2.channel == "leave")) = true ∧
    ((st.send ch d).all (fun p => p.2.channel == ch)) = true ∧
    ((st.handleMessage conn m).all (fun p => p.2.channel == m.channel)) = true ∧
    ((st.addConnection conn).localEvents.any
      (fun ev => match ev with | .peersEv _ => true | _ => false)) = true ∧
    ((st.removeConnection conn).localEvents.any
      (fun ev => match ev with | .peersEv _ => true | _ => false)) = true := by
  refine ⟨?_, ?_, ?_, ?_, ?_, ?_⟩
  · rw [List.all_eq_true]
    intro p hp
    simp only [ServerNetwork.addConnection, ServerNetwork.channelSend] at hp
    simpa using send_channel _ _ _ p hp
  · rw [List.all_eq_true]
    intro p hp
    simp only [ServerNetwork.removeConnection, ServerNetwork.channelSend] at hp
    simpa using send_channel _ _ _ p hp
  · rw [List.all_eq_true]
    intro p hp
    simpa using send_channel _ _ _ p hp
  · rw [List.all_eq_true]
    intro p hp
    simp only [ServerNetwork.handleMessage] at hp
    have h := broadcast_snd _ _ _ p hp
    simp [h]
  · rfl
  · rfl

/-- C2 counterexample: on a host with one existing connection cA, accepting a
new connection cB sends the join envelope to cA as well as to cB: the join
envelope is not unicast to the newly joined connection only. -/
theorem join_not_unicast :
    (host1.addConnection cB).wire.map Prod.fst = [cA, cB] ∧ cA ≠ cB := by
  decide

/-- C2 (amended): when a connection joins a host that already has K peers
(K = `connectedPeers().length` before the join, host included), the host adds
it to the set and sends one join envelope carrying the new peer and the full
roster of length K+1 through the `join` channel handle, whose `send`
broadcasts it to every connection - the newly joined one and all
pre-existing ones alike; the roster uuids are pairwise distinct provided the
previous roster was duplicate-free and the new connection's uuid is fresh. -/
theorem join_envelope_roster (st : ServerNetwork) (conn : DataConnection) (pid : String)
    (hpid : st.peerId = some pid) (hfresh : conn ∉ st.connections) :
    ((st.addConnection conn).state.connections = st.connections ++ [conn]) ∧
    ((st.addConnection conn).wire.map Prod.fst = st.connections ++ [conn]) ∧
    (∀ p ∈ (st.addConnection conn).wire,
      p.2 = ⟨"join", .roster ⟨conn.peer, conn.metadata⟩
              ((st.addConnection conn).state.connectedPeers), pid⟩) ∧
    ((st.addConnection conn).state.connectedPeers.length
      = st.connectedPeers.length + 1) ∧
    ((st.connectedPeers.map PeerData.uuid).Nodup →
      conn.peer ∉ st.connectedPeers.map PeerData.uuid →
      ((st.addConnection conn).state.connectedPeers.map PeerData.uuid).Nodup) := by
  have hstate : (st.addConnection conn).state
      = { st with connections := st.connections ++ [conn] } := by
    simp [ServerNetwork.addConnection, hfresh]
  have hwire0 : (st.addConnection conn).wire
      = ServerNetwork.channelSend { st with connections := st.connections ++ [conn] }
          "join" (.roster ⟨conn.peer, conn.metadata⟩
            (ServerNetwork.connectedPeers
              { st with connections := st.connections ++ [conn] })) := by
    simp [ServerNetwork.addConnection, hfresh]
  have hsend : (st.addConnection conn).wire
      = (st.connections ++ [conn]).map (fun c =>
          (c, ⟨"join", .roster ⟨conn.peer, conn.metadata⟩
                (ServerNetwork.connectedPeers
                  { st with connections := st.connections ++ [conn] }), pid⟩)) := by
    rw [hwire0, ServerNetwork.channelSend,
      send_some { st with connections := st.connections ++ [conn] } pid hpid]
  refine ⟨?_, ?_, ?_, ?_, ?_⟩
  · rw [hstate]
  · rw [hsend, List.map_map]
    have h : (Prod.fst ∘ fun c : DataConnection =>
        (c, (⟨"join", .roster ⟨conn.peer, conn.metadata⟩
          (ServerNetwork.connectedPeers
            { st with connections := st.connections ++ [conn] }), pid⟩ : Message)))
        = fun c => c := rfl
    rw [h, List.map_id']
  · intro p hp
    rw [hsend] at hp
    rw [hstate]
    simp only [List.mem_map] at hp
    obtain ⟨c, _, rfl⟩ := hp
    rfl
  · rw [hstate]
    simp only [ServerNetwork.connectedPeers, selfPeerList_set_connections,
      List.length_append, List.length_map, List.length_cons, List.length_nil]
    omega
  · intro hdup hnotin
    rw [hstate]
    simp only [ServerNetwork.connectedPeers, selfPeerList_set_connections,
      List.map_append, List.map_map, List.map_cons, List.map_nil,
      List.append_assoc, List.singleton_append] at hdup hnotin ⊢
    rw [List.nodup_middle]
    rw [List.nodup_cons]
    constructor
    · simpa using hnotin
    · simpa using hdup

/-- Witness for C2's amended statement: the concrete host with one existing
connection accepting cB; the roster grows from 2 (cA and the host) to 3 and
stays duplicate-free. -/
theorem join_envelope_roster_witness :
    ((host1.addConnection cB).state.connections = [cA, cB]) ∧
    ((host1.addConnection cB).wire.map Prod.fst = [cA, cB]) ∧
    ((host1.addConnection cB).state.connectedPeers.length = 3) ∧
    (((host1.addConnection cB).state.connectedPeers.map PeerData.uuid).Nodup) := by
  obtain ⟨h1, h2, _, h4, h5⟩ := join_envelope_roster host1 cB "uuid-h" rfl (by decide)
  refine ⟨h1, h2, ?_, h5 (by decide) (by decide)⟩
  rw [h4]
  rfl

/-- C3: when client B's connection closes or errors (the handlers registered
in `addConnection` then call `removeConnection`), the host removes it from
the connection set, recomputes the peer list, emits the local `leave` (and
`peers`) notification, and broadcasts exactly one `leave` envelope to each
remaining connection; the accompanying roster no longer contains B's uuid. -/
theorem leave_broadcast (st : ServerNetwork) (conn : DataConnection) (pid : String)
    (hpid : st.peerId = some pid)
    (hnd : st.connections.Nodup)
    (huuid : ∀ c ∈ st.connections, c ≠ conn → c.peer ≠ conn.peer)
    (hhost : pid ≠ conn.peer) :
    (conn ∉ (st.removeConnection conn).state.connections) ∧
    ((st.removeConnection conn).state.connections = st.connections.filter (· ≠ conn)) ∧
    (LocalEvent.leaveEv conn.metadata.name ∈ (st.removeConnection conn).localEvents) ∧
    (LocalEvent.peersEv ((st.removeConnection conn).state.connectedPeers)
      ∈ (st.removeConnection conn).localEvents) ∧
    ((st.removeConnection conn).wire.map Prod.fst = st.connections.filter (· ≠ conn)) ∧
    (((st.removeConnection conn).wire.map Prod.fst).Nodup) ∧
    (∀ p ∈ (st.removeConnection conn).wire,
      p.2 = ⟨"leave", .roster ⟨conn.peer, conn.metadata⟩
              ((st.removeConnection conn).state.connectedPeers), pid⟩) ∧
    (conn.peer ∉ ((st.removeConnection conn).state.connectedPeers).map PeerData.uuid) := by
  have hsend : (st.removeConnection conn).wire
      = (st.connections.filter (· ≠ conn)).map (fun c =>
          (c, ⟨"leave", .roster ⟨conn.peer, conn.metadata⟩
                (ServerNetwork.connectedPeers
                  { st with connections := st.connections.filter (· ≠ conn) }), pid⟩)) := by
    rw [show (st.removeConnection conn).wire
        = ServerNetwork.channelSend
            { st with connections := st.connections.filter (· ≠ conn) }
            "leave" (.roster ⟨conn.peer, conn.metadata⟩
              (ServerNetwork.connectedPeers
                { st with connections := st.connections.filter (· ≠ conn) })) from rfl,
      ServerNetwork.channelSend,
      send_some { st with connections := st.connections.filter (· ≠ conn) } pid hpid]
  have hmapfst : (st.removeConnection conn).wire.map Prod.fst
      = st.connections.filter (· ≠ conn) := by
    rw [hsend, List.map_map]
    have h : (Prod.fst ∘ fun c : DataConnection =>
        (c, (⟨"leave", .roster ⟨conn.peer, conn.metadata⟩
          (ServerNetwork.connectedPeers
            { st with connections := st.connections.filter (· ≠ conn) }), pid⟩ : Message)))
        = fun c => c := rfl
    rw [h, List.map_id']
  have hnotinroster : conn.peer ∉
      ((st.removeConnection conn).state.connectedPeers).map PeerData.uuid := by
    simp only [ServerNetwork.removeConnection, ServerNetwork.connectedPeers,
      selfPeerList_set_connections, List.map_append, List.map_map, List.mem_append]
    rintro (h | h)
    · simp only [List.mem_map, Function.comp, List.mem_filter] at h
      obtain ⟨c, ⟨hc, hcne⟩, hpe⟩ := h
      have hcne' : c ≠ conn := by simpa using hcne
      exact huuid c hc hcne' hpe
    · cases hm : st.metadata with
      | none =>
        rw [ServerNetwork.selfPeerList, ServerNetwork.getPeerData, hm] at h
        simp at h
      | some md =>
        rw [ServerNetwork.selfPeerList, ServerNetwork.getPeerData, hm, hpid] at h
        simp at h
        exact hhost h.symm
  refine ⟨?_, rfl, ?_, ?_, hmapfst, ?_, ?_, hnotinroster⟩
  · simp [ServerNetwork.removeConnection, List.mem_filter]
  · simp [ServerNetwork.removeConnection]
  · exact List.mem_cons_self _ _
  · rw [hmapfst]
    exact hnd.filter _
  · intro p hp
    rw [hsend] at hp
    simp only [List.mem_map] at hp
    obtain ⟨c, _, rfl⟩ := hp
    rfl

/-- Witness for C3: the concrete host with connections cA and cB removing cB;
only cA remains, only cA receives the leave envelope, and the new roster no
longer mentions cB's uuid. -/
theorem leave_broadcast_witness :
    (cB ∉ (host2.removeConnection cB).state.connections) ∧
    ((host2.removeConnection cB).wire.map Prod.fst = [cA]) ∧
    (cB.peer ∉ ((host2.removeConnection cB).state.connectedPeers).map PeerData.uuid) := by
  obtain ⟨h1, _, _, _, h5, _, _, h8⟩ :=
    leave_broadcast host2 cB "uuid-h" rfl (by decide) (by decide) (by decide)
  exact ⟨h1, h5, h8⟩

/-- C9 counterexample: a connected client can put a `peers`-channel envelope
on the wire; the host relays it to the other connection, so in this reachable
behavior an envelope whose channel is `peers` is transmitted over a
connection. -/
theorem peers_channel_relayed :
    (host2.handleMessage cA forgedPeers).map (fun p => p.2.channel) = ["peers"] := by
  decide

/-- C4: For every simulation step at time `now` with step duration `delta`, a
remote tank proxy is removed by the eviction pass if and only if
`now - lastSnapshotTimestamp > 5000 + delta`; with `lastSnapshotTimestamp = 0`
and `delta = 0`, a step at `now = 5001` evicts the proxy and a step at
`now = 4999` does not. -/
theorem staleness_eviction (tanks : List Game.EntityRec) (now delta : Int) :
    (∀ e : Game.EntityRec,
      e ∈ Game.updateStep tanks now delta ↔
        e ∈ tanks ∧ ¬(e.isNetwork = true ∧ now - e.lastUpdate > 5000 + delta)) ∧
    Game.staleCheck 0 0 5001 = true ∧ Game.staleCheck 0 0 4999 = false := by
  have key : ∀ e : Game.EntityRec,
      (!(e.isNetwork && Game.staleCheck e.lastUpdate delta now)) = true ↔
        ¬(e.isNetwork = true ∧ now - e.lastUpdate > 5000 + delta) := by
    intro e
    cases hn : e.isNetwork
    · simp
    · simp only [Bool.true_and, hn, Game.staleCheck, Bool.not_eq_true',
        decide_eq_false_iff_not, true_and]
      omega
  refine ⟨fun e => ?_, by decide, by decide⟩
  simp only [Game.updateStep, List.mem_filter]
  exact and_congr_right fun _ => key e

/-- C7: Setting `health` to `-30` on a bag holding `100`, through the clamped
write path, stores `0` and fires the reached-zero transition (which calls
`die`) exactly once; a subsequent write of `-10` stores `0` again without
firing the transition a second time. -/
theorem health_clamp_die_once :
    let s0 : Tank.HealthProp := ⟨100, 0⟩
    let s1 := Tank.writeHealth s0 (-30)
    let s2 := Tank.writeHealth s1 (-10)
    s1.value = 0 ∧ s1.dieCount = 1 ∧ s2.value = 0 ∧ s2.dieCount = 1 := by
  decide

/-- C10: `Tank.shoot` returns false and creates no bullet exactly when fewer
than 750 ms have elapsed since the last successful shot or the tank is dead;
otherwise it creates exactly one bullet, updates `lastShot` to `now` and
returns true; and `TankPlayer.shoot` sends the `tank:shoot` event if and only
if the base `shoot` returned true. -/
theorem shoot_cooldown (st : Tank.ShootState) (now : Int) (uuid : String) :
    ((Tank.shoot st now).returned = false ↔
      now - st.lastShot < 750 ∨ st.health ≤ 0) ∧
    ((Tank.shoot st now).returned = false →
      (Tank.shoot st now).bulletsCreated = 0 ∧
      (Tank.shoot st now).lastShot = st.lastShot) ∧
    ((Tank.shoot st now).returned = true →
      (Tank.shoot st now).bulletsCreated = 1 ∧
      (Tank.shoot st now).lastShot = now) ∧
    ((Tank.playerShoot st now uuid).2 = [("tank:shoot", uuid)] ↔
      (Tank.shoot st now).returned = true) ∧
    ((Tank.playerShoot st now uuid).2 = [] ↔
      (Tank.shoot st now).returned = false) := by
  by_cases hc : st.lastShot + 750 > now ∨ Tank.isDead st = true
  · have hr : Tank.shoot st now = ⟨false, 0, st.lastShot⟩ := by
      rw [Tank.shoot, if_pos hc]
    have hcond : now - st.lastShot < 750 ∨ st.health ≤ 0 := by
      rcases hc with h | h
      · exact Or.inl (by omega)
      · exact Or.inr (by simpa [Tank.isDead] using h)
    refine ⟨?_, ?_, ?_, ?_, ?_⟩
    · simp only [hr]
      simpa using hcond
    · simp [hr]
    · simp [hr]
    · simp [Tank.playerShoot, hr]
    · simp [Tank.playerShoot, hr]
  · push_neg at hc
    obtain ⟨h1, h2⟩ := hc
    have hh : ¬(st.health ≤ 0) := by simpa [Tank.isDead] using h2
    have hr : Tank.shoot st now = ⟨true, 1, now⟩ := by
      rw [Tank.shoot, if_neg]
      push_neg
      exact ⟨h1, h2⟩
    have hnc : ¬(now - st.lastShot < 750 ∨ st.health ≤ 0) := by
      push_neg
      exact ⟨by omega, by omega⟩
    refine ⟨?_, ?_, ?_, ?_, ?_⟩
    · simp [hr, hnc]
    · simp [hr]
    · simp [hr]
    · simp [Tank.playerShoot, hr]
    · simp [Tank.playerShoot, hr]

/-- Witness for C10: a live tank last shot at t=0 shooting at t=750 creates
one bullet, refreshes `lastShot` and emits `tank:shoot`; shooting at t=500
(only 500 ms later) creates none. -/
theorem shoot_cooldown_witness :
    ((Tank.shoot ⟨0, 100⟩ 750).bulletsCreated = 1) ∧
    ((Tank.shoot ⟨0, 100⟩ 750).lastShot = 750) ∧
    ((Tank.playerShoot ⟨0, 100⟩ 750 "u").2 = [("tank:shoot", "u")]) ∧
    ((Tank.shoot ⟨0, 100⟩ 500).bulletsCreated = 0) := by
  obtain ⟨i1, _, i3, i4, _⟩ := shoot_cooldown ⟨0, 100⟩ 750 "u"
  obtain ⟨j1, j2, _, _, _⟩ := shoot_cooldown ⟨0, 100⟩ 500 "u"
  have hret : (Tank.shoot ⟨0, 100⟩ 750).returned = true := by
    have hno : ¬((750 : Int) - 0 < 750 ∨ (100 : Int) ≤ 0) := by decide
    cases hb : (Tank.shoot ⟨0, 100⟩ 750).returned
    · exact absurd (i1.mp hb) hno
    · rfl
  have hfalse : (Tank.shoot ⟨0, 100⟩ 500).returned = false :=
    j1.mpr (Or.inl (by decide))
  exact ⟨(i3 hret).1, (i3 hret).2, i4.mpr hret, (j2 hfalse).1⟩

/-- C5: an `update` snapshot carrying the local player's uuid (or arriving
before a player exists) is discarded; any other is stored in the pending
buffer under its uuid by `Map.set`, so a later snapshot for the same uuid
overwrites the earlier one; the processing tick applies each buffered
snapshot - creating and adding a proxy exactly when none exists with that
uuid, else updating in place - after which the proxy under each buffered
uuid holds the buffered snapshot, and the buffer is emptied. -/
theorem snapshot_ingestion (pu pl : String) (buffer : List (String × Game.Snapshot))
    (snap : Game.Snapshot) (es : List Game.Proxy) (entry : String × Game.Snapshot) :
    (Game.bufferUpdate (some pu) buffer ⟨pu, pl⟩ = buffer) ∧
    (Game.bufferUpdate none buffer snap = buffer) ∧
    (snap.uuid ≠ pu →
      Game.bufferUpdate (some pu) buffer snap = Game.mapSet buffer snap.uuid snap) ∧
    (Game.mapGet (Game.mapSet buffer snap.uuid snap) snap.uuid = some snap) ∧
    ((Game.processTick es buffer).2 = []) ∧
    ((buffer.map Prod.fst).Nodup →
      ∀ e ∈ buffer, Game.findProxy e.1 (Game.processTick es buffer).1 = some e.2) ∧
    ((Game.applyBuffered es entry).length
      = if (es.any fun p => p.uuid = entry.1) = true then es.length
        else es.length + 1) := by
  refine ⟨?_, rfl, ?_, mapGet_mapSet_self buffer snap.uuid snap, rfl, ?_, ?_⟩
  · simp [Game.bufferUpdate]
  · intro h
    simp [Game.bufferUpdate, h]
  · intro hk
    exact findProxy_foldl_mem buffer es hk
  · rw [Game.applyBuffered]
    by_cases h : (es.any fun p => p.uuid = entry.1) = true
    · simp [h]
    · simp [h]

/-- Witness for C5 at concrete values: a buffered snapshot for uuid B on a
host whose player is P; the own-uuid snapshot is discarded, a foreign one is
buffered, last write wins, and the tick creates the proxy for B, applies the
snapshot and clears the buffer. -/
theorem snapshot_ingestion_witness :
    (Game.bufferUpdate (some "P") [("B", ⟨"B", "z"⟩)] ⟨"P", "x"⟩
      = [("B", ⟨"B", "z"⟩)]) ∧
    (Game.bufferUpdate (some "P") [("B", ⟨"B", "z"⟩)] ⟨"A", "x"⟩
      = Game.mapSet [("B", ⟨"B", "z"⟩)] "A" ⟨"A", "x"⟩) ∧
    (Game.mapGet (Game.mapSet [("B", ⟨"B", "z"⟩)] "A" ⟨"A", "x"⟩) "A"
      = some ⟨"A", "x"⟩) ∧
    ((Game.processTick [] [("B", ⟨"B", "z"⟩)]).2 = []) ∧
    (Game.findProxy "B" (Game.processTick [] [("B", ⟨"B", "z"⟩)]).1
      = some ⟨"B", "z"⟩) ∧
    ((Game.applyBuffered [] ("A", ⟨"A", "x"⟩)).length = 1) := by
  obtain ⟨c1, _, c3, c4, c5, c6, c7⟩ :=
    snapshot_ingestion "P" "x" [("B", ⟨"B", "z"⟩)] ⟨"A", "x"⟩ [] ("A", ⟨"A", "x"⟩)
  refine ⟨c1, c3 (by decide), c4, c5, ?_, ?_⟩
  · exact c6 (by decide) ("B", ⟨"B", "z"⟩) (by decide)
  · rw [c7]
    decide

/-- C8: with the chat network available, a submission accepted by the rate
limiter transmits the trimmed, 100-character-truncated message exactly once
and appends it to the local list through `addMessage`; a second submission
within 600 ms of the first is silently dropped with no state change at all. -/
theorem chat_rate_limit (st0 : ChatUi.ChatState) (uuid msg1 msg2 : String)
    (now1 now2 : Int)
    (h1 : ¬(now1 - st0.lastMessageTime < 600))
    (h2 : msg1 ≠ "")
    (h3 : now2 - now1 < 600) :
    ((ChatUi.handleSubmit true now1 st0 uuid msg1).transmitted
      = st0.transmitted ++ [((msg1.trim).take 100, now1)]) ∧
    ((ChatUi.handleSubmit true now1 st0 uuid msg1).messages
      = ChatUi.addMessage st0.messages ⟨uuid, (msg1.trim).take 100, now1⟩) ∧
    (ChatUi.handleSubmit true now2 (ChatUi.handleSubmit true now1 st0 uuid msg1) uuid msg2
      = ChatUi.handleSubmit true now1 st0 uuid msg1) := by
  have e1 : ChatUi.handleSubmit true now1 st0 uuid msg1
      = { lastMessageTime := now1
          messages := ChatUi.addMessage st0.messages ⟨uuid, (msg1.trim).take 100, now1⟩
          transmitted := st0.transmitted ++ [((msg1.trim).take 100, now1)] } := by
    rw [ChatUi.handleSubmit, if_neg h1, if_neg h2, ChatUi.sendChat, if_pos rfl]
  have e2 : ∀ st1 : ChatUi.ChatState, st1.lastMessageTime = now1 →
      ChatUi.handleSubmit true now2 st1 uuid msg2 = st1 := by
    intro st1 hl
    rw [ChatUi.handleSubmit,
      if_pos (show now2 - st1.lastMessageTime < 600 by rw [hl]; exact h3)]
  have hl : (ChatUi.handleSubmit true now1 st0 uuid msg1).lastMessageTime = now1 := by
    rw [e1]
  exact ⟨by rw [e1], by rw [e1], e2 _ hl⟩

/-- Witness for C8: from a fresh chat state, a submission at t=600 is
transmitted and a second one at t=1000 (400 ms later) leaves the state
unchanged. -/
theorem chat_rate_limit_witness :
    ((ChatUi.handleSubmit true 600 ⟨0, [], []⟩ "u" "hello").transmitted
      = [] ++ [(("hello".trim).take 100, 600)]) ∧
    (ChatUi.handleSubmit true 1000
        (ChatUi.handleSubmit true 600 ⟨0, [], []⟩ "u" "hello") "u" "again"
      = ChatUi.handleSubmit true 600 ⟨0, [], []⟩ "u" "hello") := by
  obtain ⟨w1, _, w3⟩ := chat_rate_limit ⟨0, [], []⟩ "u" "hello" "again" 600 1000
    (by decide) (by decide) (by decide)
  exact ⟨w1, w3⟩

end Tankwar
